import Mathlib

/-!
Shallow embedding of `pymodeltime/ModelTimeForecast.py` (class `ModelTimeForecast`).

Modelling conventions:
* Calendar dates are `Date` records (year, month, day); pandas timestamps carry no
  time-of-day in the code paths modelled here.
* A pandas `DataFrame` is a `Frame`: a `date` column (always structurally present),
  a dtype flag recording whether the date column has been converted by
  `pd.to_datetime` (the only in-place mutation the source performs on caller data),
  and named numeric columns with nullable entries (`NaN` is `Option.none`).
* Numeric values are `ℚ` (the float arithmetic of the source is modelled exactly).
* A method that can raise becomes `Except Err _`; a Python function that can fall
  off the end and return `None` becomes `Except Err (Option _)`.
* External model objects (`ProphetReg`, `ArimaReg`, `MLModelWrapper`,
  `H2OAutoMLWrapper`) are out of scope of the repository; they appear as abstract
  `predict` functions inside the `Model` inductive, exactly the interface the
  dispatcher consumes.  `h2o.init()` is a process-wide no-op for the table logic
  and is not modelled.
-/

namespace Pymodeltime

/-- Calendar date: year, month (1-12), day (1-31). -/
structure Date where
  y : Nat
  m : Nat
  d : Nat
deriving DecidableEq

/-- Lexicographic order on (year, month, day), the order pandas timestamps carry. -/
def Date.le (a b : Date) : Prop :=
  a.y < b.y ∨ (a.y = b.y ∧ (a.m < b.m ∨ (a.m = b.m ∧ a.d ≤ b.d)))

/-- Strict lexicographic order on (year, month, day). -/
def Date.lt (a b : Date) : Prop :=
  a.y < b.y ∨ (a.y = b.y ∧ (a.m < b.m ∨ (a.m = b.m ∧ a.d < b.d)))

instance (a b : Date) : Decidable (Date.le a b) := by
  unfold Date.le; exact inferInstance

instance (a b : Date) : Decidable (Date.lt a b) := by
  unfold Date.lt; exact inferInstance

theorem Date.le_refl (a : Date) : Date.le a a := by
  rcases a with ⟨y, m, d⟩; simp [Date.le]

theorem Date.le_trans {a b c : Date} (h1 : Date.le a b) (h2 : Date.le b c) :
    Date.le a c := by
  rcases a with ⟨y1, m1, d1⟩; rcases b with ⟨y2, m2, d2⟩; rcases c with ⟨y3, m3, d3⟩
  simp only [Date.le] at *; omega

theorem Date.le_total (a b : Date) : Date.le a b ∨ Date.le b a := by
  rcases a with ⟨y1, m1, d1⟩; rcases b with ⟨y2, m2, d2⟩
  simp only [Date.le] at *; omega

theorem Date.le_of_lt {a b : Date} (h : Date.lt a b) : Date.le a b := by
  rcases a with ⟨y1, m1, d1⟩; rcases b with ⟨y2, m2, d2⟩
  simp only [Date.le, Date.lt] at *; omega

theorem Date.lt_of_lt_of_le {a b c : Date} (h1 : Date.lt a b) (h2 : Date.le b c) :
    Date.lt a c := by
  rcases a with ⟨y1, m1, d1⟩; rcases b with ⟨y2, m2, d2⟩; rcases c with ⟨y3, m3, d3⟩
  simp only [Date.le, Date.lt] at *; omega

theorem Date.lt_of_le_of_lt {a b c : Date} (h1 : Date.le a b) (h2 : Date.lt b c) :
    Date.lt a c := by
  rcases a with ⟨y1, m1, d1⟩; rcases b with ⟨y2, m2, d2⟩; rcases c with ⟨y3, m3, d3⟩
  simp only [Date.le, Date.lt] at *; omega

/-- Gregorian leap-year rule, as used by pandas/Python `calendar`. -/
def isLeap (y : Nat) : Bool :=
  (y % 4 = 0 ∧ y % 100 ≠ 0) ∨ y % 400 = 0

/-- Number of days in a Gregorian month. -/
def daysInMonth (y m : Nat) : Nat :=
  if m = 2 then (if isLeap y then 29 else 28)
  else if m = 4 ∨ m = 6 ∨ m = 9 ∨ m = 11 then 30
  else 31

theorem daysInMonth_pos (y m : Nat) : 1 ≤ daysInMonth y m := by
  unfold daysInMonth; split <;> [skip; split] <;> (first | split <;> omega | omega)

/-- Validity of a calendar date. -/
def ValidDate (a : Date) : Prop :=
  1 ≤ a.m ∧ a.m ≤ 12 ∧ 1 ≤ a.d ∧ a.d ≤ daysInMonth a.y a.m

instance (a : Date) : Decidable (ValidDate a) := by
  unfold ValidDate; exact inferInstance

/-- Linear month index (`year * 12 + (month - 1)`), used to step month-end
frequencies the way `pd.date_range(freq='M')` does. -/
def monthIdx (a : Date) : Nat := a.y * 12 + (a.m - 1)

/-- The month-end date of the month with linear index `i`: pandas `'M'` frequency
produces exactly these dates. -/
def monthEnd (i : Nat) : Date :=
  ⟨i / 12, i % 12 + 1, daysInMonth (i / 12) (i % 12 + 1)⟩

/-- Successor date (`+ pd.Timedelta(days=1)`), with month/year rollover. -/
def addOneDay (a : Date) : Date :=
  if a.d < daysInMonth a.y a.m then ⟨a.y, a.m, a.d + 1⟩
  else if a.m < 12 then ⟨a.y, a.m + 1, 1⟩
  else ⟨a.y + 1, 1, 1⟩

/-- Model of `pd.date_range(start=s, periods=n, freq='M')`: the `n` consecutive
month-end dates beginning with the month-end of the month containing `s`
(for any valid `s` the month-end of its own month is the first month-end `>= s`). -/
def date_range_M (s : Date) (n : Nat) : List Date :=
  (List.range n).map (fun k => monthEnd (monthIdx s + k))

theorem monthEnd_lt_monthEnd {i j : Nat} (h : i < j) :
    Date.lt (monthEnd i) (monthEnd j) := by
  have hd : i / 12 < j / 12 ∨ (i / 12 = j / 12 ∧ i % 12 < j % 12) := by omega
  simp only [monthEnd, Date.lt]
  rcases hd with hd | ⟨hd1, hd2⟩
  · exact Or.inl hd
  · exact Or.inr ⟨hd1, Or.inl (by omega)⟩

theorem monthEnd_le_monthEnd {i j : Nat} (h : i ≤ j) :
    Date.le (monthEnd i) (monthEnd j) := by
  rcases Nat.lt_or_ge i j with hlt | hge
  · exact Date.le_of_lt (monthEnd_lt_monthEnd hlt)
  · have : i = j := by omega
    rw [this]; exact Date.le_refl _

theorem validDate_addOneDay {a : Date} (h : ValidDate a) : ValidDate (addOneDay a) := by
  rcases a with ⟨y, m, d⟩
  obtain ⟨h1, h2, h3, h4⟩ := h
  have h1b : 1 ≤ m := h1
  have h2b : m ≤ 12 := h2
  have h3b : 1 ≤ d := h3
  have h4b : d ≤ daysInMonth y m := h4
  unfold addOneDay
  split
  next hc =>
    have hc2 : d < daysInMonth y m := hc
    exact ⟨h1b, h2b, show 1 ≤ d + 1 by omega, show d + 1 ≤ daysInMonth y m by omega⟩
  next hc =>
    split
    next hm =>
      have hm2 : m < 12 := hm
      exact ⟨show 1 ≤ m + 1 by omega, show m + 1 ≤ 12 by omega,
        show 1 ≤ (1 : Nat) by omega, show 1 ≤ daysInMonth y (m + 1) from daysInMonth_pos y (m + 1)⟩
    next hm =>
      exact ⟨show 1 ≤ (1 : Nat) by omega, show 1 ≤ (12 : Nat) by omega,
        show 1 ≤ (1 : Nat) by omega, show 1 ≤ daysInMonth (y + 1) 1 from daysInMonth_pos (y + 1) 1⟩

theorem lt_addOneDay {a : Date} (h : ValidDate a) : Date.lt a (addOneDay a) := by
  rcases a with ⟨y, m, d⟩
  unfold addOneDay
  split
  · exact Or.inr ⟨rfl, Or.inr ⟨rfl, show d < d + 1 by omega⟩⟩
  · split
    · exact Or.inr ⟨rfl, Or.inl (show m < m + 1 by omega)⟩
    · exact Or.inl (show y < y + 1 by omega)

theorem le_monthEnd_monthIdx {a : Date} (h : ValidDate a) :
    Date.le a (monthEnd (monthIdx a)) := by
  rcases a with ⟨y, m, d⟩
  obtain ⟨h1, h2, h3, h4⟩ := h
  have h1b : 1 ≤ m := h1
  have h2b : m ≤ 12 := h2
  have h4b : d ≤ daysInMonth y m := h4
  have hdiv : (y * 12 + (m - 1)) / 12 = y := by omega
  have hmod : (y * 12 + (m - 1)) % 12 + 1 = m := by omega
  show Date.le ⟨y, m, d⟩
    ⟨(y * 12 + (m - 1)) / 12, (y * 12 + (m - 1)) % 12 + 1,
      daysInMonth ((y * 12 + (m - 1)) / 12) ((y * 12 + (m - 1)) % 12 + 1)⟩
  rw [hdiv, hmod]
  exact Or.inr ⟨rfl, Or.inr ⟨rfl, show d ≤ daysInMonth y m from h4b⟩⟩

/-- Pairwise maximum of two dates, the reduction step of pandas `Series.max`. -/
def maxDate2 (a b : Date) : Date := if Date.le a b then b else a

/-- Model of `actual_data['date'].max()`.  The fold default `⟨0,1,1⟩` is below
every valid date and is only relevant for an empty column, where pandas would
yield `NaT`; no claim exercises that corner. -/
def maxD (l : List Date) : Date := l.foldl maxDate2 ⟨0, 1, 1⟩

theorem maxDate2_cases (a b : Date) : maxDate2 a b = a ∨ maxDate2 a b = b := by
  unfold maxDate2; split
  · exact Or.inr rfl
  · exact Or.inl rfl

theorem le_maxDate2_left (a b : Date) : Date.le a (maxDate2 a b) := by
  by_cases hc : Date.le a b
  · simp only [maxDate2, if_pos hc]; exact hc
  · simp only [maxDate2, if_neg hc]; exact Date.le_refl a

theorem le_maxDate2_right (a b : Date) : Date.le b (maxDate2 a b) := by
  by_cases hc : Date.le a b
  · simp only [maxDate2, if_pos hc]; exact Date.le_refl b
  · simp only [maxDate2, if_neg hc]
    rcases Date.le_total a b with h1 | h1
    · exact absurd h1 hc
    · exact h1

theorem foldl_maxDate2_mem (l : List Date) : ∀ a : Date, l.foldl maxDate2 a ∈ a :: l := by
  induction l with
  | nil => intro a; simp
  | cons x xs ih =>
    intro a
    have h := ih (maxDate2 a x)
    simp only [List.foldl_cons]
    rcases List.mem_cons.mp h with h1 | h1
    · rcases maxDate2_cases a x with h2 | h2 <;> rw [h1, h2] <;> simp
    · simp [h1]

theorem le_foldl_maxDate2 (l : List Date) :
    ∀ a : Date, (∀ x ∈ l, Date.le x (l.foldl maxDate2 a)) ∧
      Date.le a (l.foldl maxDate2 a) := by
  induction l with
  | nil => intro a; simp [Date.le_refl]
  | cons c xs ih =>
    intro a
    have h := ih (maxDate2 a c)
    simp only [List.foldl_cons]
    refine ⟨?_, Date.le_trans (le_maxDate2_left a c) h.2⟩
    intro x hx
    rcases List.mem_cons.mp hx with h1 | h1
    · rw [h1]; exact Date.le_trans (le_maxDate2_right a c) h.2
    · exact h.1 x h1

theorem maxD_mem_or_default (l : List Date) : maxD l ∈ l ∨ maxD l = ⟨0, 1, 1⟩ := by
  have h := foldl_maxDate2_mem l ⟨0, 1, 1⟩
  rcases List.mem_cons.mp h with h1 | h1
  · exact Or.inr h1
  · exact Or.inl h1

theorem le_maxD {l : List Date} {x : Date} (hx : x ∈ l) : Date.le x (maxD l) :=
  (le_foldl_maxDate2 l ⟨0, 1, 1⟩).1 x hx

theorem validDate_maxD {l : List Date} (hv : ∀ x ∈ l, ValidDate x) :
    ValidDate (maxD l) := by
  rcases maxD_mem_or_default l with h | h
  · exact hv _ h
  · rw [h]; decide

/-- Model of a pandas `DataFrame` as the dispatcher uses one: a `date` column
(structurally always present; the `KeyError` guards of the source for a missing
date column are therefore vacuous in this model and no claim exercises them),
a dtype flag set by `pd.to_datetime` (whose date values are unchanged — only the
column dtype is), and named numeric columns whose entries may be `NaN` (`none`). -/
structure Frame where
  dates : List Date
  date_is_datetime : Bool
  cols : List (String × List (Option ℚ))
deriving DecidableEq

/-- Column labels of the frame (`df.columns`). -/
def Frame.columns (f : Frame) : List String :=
  "date" :: f.cols.map Prod.fst

/-- Lookup of a named value column. -/
def Frame.col? (f : Frame) (name : String) : Option (List (Option ℚ)) :=
  (f.cols.find? (fun c => c.1 = name)).map Prod.snd

/-- Model of the in-place `self.actual_data['date'] = pd.to_datetime(...)`
assignment: the stored date values are the same dates, only the column dtype
changes, recorded in the flag. -/
def Frame.to_datetime (f : Frame) : Frame :=
  { f with date_is_datetime := true }

/-- Model of `df.drop(columns=[name], errors='ignore')` (a new frame). -/
def Frame.dropCol (f : Frame) (name : String) : Frame :=
  { f with cols := f.cols.filter (fun c => ¬ c.1 = name) }

/-- Model of `df[names]` column selection (a new frame). -/
def Frame.select (f : Frame) (names : List String) : Frame :=
  { f with cols := names.filterMap (fun n => (f.col? n).map (fun v => (n, v))) }

/-- One row of a Prophet prediction frame as `ProphetReg.predict` returns it
(columns `date`, `predicted`, `conf_lo`, `conf_hi`); the wrapper is external to
the repository and appears only through this output schema. -/
structure PRow where
  date : Date
  predicted : ℚ
  conf_lo : ℚ
  conf_hi : ℚ
deriving DecidableEq

/-- One row of the normalized output table built by the dispatcher. -/
structure Row where
  model_id : String
  model_desc : String
  key : String
  date : Date
  value : ℚ
  conf_lo : Option ℚ
  conf_hi : Option ℚ
deriving DecidableEq

/-- The model families the dispatcher branches over with `isinstance`.  The
wrapped `predict` callables and identity metadata are the interface consumed by
`ModelTimeForecast`; `other` stands for any object of none of the four families,
with a flag recording whether `hasattr(model, 'predict')` holds. -/
inductive Model where
  | prophet (id desc : String) (predict : Frame → List PRow)
  | arima (id desc : String) (predict : Frame → List ℚ)
  | ml (model_id model_name : String) (feature_names : List String)
      (predict : Frame → List ℚ)
  | h2o (id desc target_column : String) (predict : Frame → List ℚ)
  | other (has_predict : Bool)

/-- Model of `hasattr(model, 'predict')`: every wrapper of the four families
exposes `predict`; an `other` object may or may not. -/
def Model.hasPredictMethod : Model → Bool
  | .other b => b
  | _ => true

instance {ε α : Type _} [DecidableEq ε] [DecidableEq α] : DecidableEq (Except ε α) :=
  fun x y =>
    match x, y with
    | .ok a, .ok b => decidable_of_iff (a = b) (by simp)
    | .error a, .error b => decidable_of_iff (a = b) (by simp)
    | .ok _, .error _ => isFalse (fun hc => Except.noConfusion hc)
    | .error _, .ok _ => isFalse (fun hc => Except.noConfusion hc)

/-- The Python exceptions the dispatcher can raise, by raise site. -/
inductive Err where
  /-- `KeyError` from a missing column subscript. -/
  | keyError
  /-- `ValueError` from tuple unpacking or `int()` in the horizon parser. -/
  | valueError
  /-- `ValueError` for an unsupported horizon unit. -/
  | unsupportedUnit
  /-- `ValueError` for missing feature columns in the MLModelWrapper branch. -/
  | missingFeatures
  /-- `AttributeError` from `_validate_model_predict_method`. -/
  | attributeError
  /-- `TypeError` from `forecast_results.extend(None)` when an adapter returns `None`. -/
  | typeErrorNone
  /-- `TypeError` from subscripting `None` (`self.actual_data['date']` with no data). -/
  | noneType
  /-- `ValueError` raised by `pd.infer_freq` itself: `Need at least 3 dates to
  infer frequency`, for a date series shorter than three entries. -/
  | inferFreqValueError
  /-- `NameError` from the unreachable tail of `_predict_new_data` reading an
  undefined `predictions` variable for an unknown model family. -/
  | nameError
  /-- `KeyError` from `sort_values(by=['key','model_id','date'])` on an empty
  result frame that has none of those columns. -/
  | keyErrorSort
  /-- `ValueError` from `_process_actual_data` when the target column is absent. -/
  | targetMissing
deriving DecidableEq

/-- The synthesized relative error margin (`predictions['predicted'] * 0.05`),
shared verbatim by the ARIMA, MLModelWrapper, and H2O branches.  Note the
source multiplies by the signed value, not its absolute value. -/
def error_margin (v : ℚ) : ℚ := v * (5 / 100)

/-- Embedding of `_prophet_future_forecast` (lines 79-108): rows are taken
directly from the Prophet output frame, with native confidence bounds and the
literal description `'PROPHET'`; the `ds` relabeling of the input is
representation-only here (column labels of the date column are not tracked). -/
def prophet_future_forecast (id : String) (predict : Frame → List PRow)
    (future_data : Frame) : List Row :=
  (predict future_data).map (fun r =>
    ⟨id, "PROPHET", "future", r.date, r.predicted, some r.conf_lo, some r.conf_hi⟩)

/-- Embedding of `_predict_future_data` (lines 111-254).  The function returns
`.ok none` when the model matches none of the four `isinstance` branches and
Python falls off the end returning `None`.  Predictions are aligned with the
future dates positionally (`set_index`/`reset_index` on equal-length data). -/
def predict_future_data (model : Model) (future_data : Frame) :
    Except Err (Option (List Row)) :=
  match model with
  | .prophet id desc p =>
      .ok (some ((p future_data).map (fun r =>
        ⟨id, desc, "future", r.date, r.predicted, some r.conf_lo, some r.conf_hi⟩)))
  | .arima id desc p =>
      let preds := p future_data
      .ok (some ((future_data.dates.zip preds).map (fun x =>
        ⟨id, desc, "future", x.1, x.2,
          some (x.2 - error_margin x.2), some (x.2 + error_margin x.2)⟩)))
  | .ml mid mname fns p =>
      if ∀ n ∈ fns, n ∈ future_data.columns then
        let preds := p (future_data.select fns)
        .ok (some ((future_data.dates.zip preds).map (fun x =>
          ⟨mid, mname, "future", x.1, x.2,
            some (x.2 - error_margin x.2), some (x.2 + error_margin x.2)⟩)))
      else .error .missingFeatures
  | .h2o id desc tcol p =>
      let preds := p (future_data.dropCol tcol)
      .ok (some ((future_data.dates.zip preds).map (fun x =>
        ⟨id, desc, "future", x.1, x.2,
          some (x.2 - error_margin x.2), some (x.2 + error_margin x.2)⟩)))
  | .other _ => .ok none

/-- Embedding of `_predict_new_data` (lines 337-469).  Output dates are aligned
to the input frame's dates (`predictions['date'] = forecast_data['date'].values`).
For a model of no known family the tail of the function reads the undefined
variable `predictions`, a `NameError`. -/
def predict_new_data (model : Model) (new_data : Frame) : Except Err (List Row) :=
  match model with
  | .prophet id desc p =>
      .ok ((new_data.dates.zip (p new_data)).map (fun x =>
        ⟨id, desc, "prediction", x.1, x.2.predicted, some x.2.conf_lo, some x.2.conf_hi⟩))
  | .arima id desc p =>
      .ok ((new_data.dates.zip (p new_data)).map (fun x =>
        ⟨id, desc, "prediction", x.1, x.2,
          some (x.2 - error_margin x.2), some (x.2 + error_margin x.2)⟩))
  | .ml mid mname fns p =>
      if ∀ n ∈ fns, n ∈ new_data.columns then
        .ok ((new_data.dates.zip (p (new_data.select fns))).map (fun x =>
          ⟨mid, mname, "prediction", x.1, x.2,
            some (x.2 - error_margin x.2), some (x.2 + error_margin x.2)⟩))
      else .error .keyError
  | .h2o id desc _ p =>
      .ok ((new_data.dates.zip (p new_data)).map (fun x =>
        ⟨id, desc, "prediction", x.1, x.2,
          some (x.2 - error_margin x.2), some (x.2 + error_margin x.2)⟩))
  | .other _ => .error .nameError

/-- Embedding of `_validate_model_predict_method` (lines 298-303).  Note this
helper is invoked only by `_process_forecast_data`, which `forecast` itself
never calls. -/
def validate_model_predict_method (model : Model) : Except Err Unit :=
  if model.hasPredictMethod then .ok () else .error .attributeError

/-- Whitespace tokenizer over a character list, the behavior of Python
`str.split()` with no argument for space-separated input: runs of spaces are
separators and empty tokens are dropped. -/
def wordsAux : List Char → List Char → List (List Char)
  | [], acc => if acc = [] then [] else [acc.reverse]
  | c :: cs, acc =>
      if c = ' ' then
        (if acc = [] then wordsAux cs [] else acc.reverse :: wordsAux cs [])
      else wordsAux cs (c :: acc)

/-- Model of `horizon_str.split()`. -/
def splitTokens (s : String) : List String :=
  (wordsAux s.data []).map (fun cs => String.mk cs)

/-- Decimal digit accumulator for `toNatDigits?`. -/
def digitsAux : List Char → Nat → Option Nat
  | [], acc => some acc
  | c :: cs, acc =>
      if '0' ≤ c ∧ c ≤ '9' then digitsAux cs (acc * 10 + (c.toNat - '0'.toNat))
      else none

/-- Model of Python `int(token)` restricted to the canonical nonnegative decimal
numerals the horizon grammar `<integer> <unit>` uses; any other token raises
`ValueError`. -/
def toNatDigits? (s : String) : Option Nat :=
  match s.data with
  | [] => none
  | cs => digitsAux cs 0

/-- The per-unit period-count table of `_parse_forecast_horizon` (lines 501-512). -/
def convert_unit (n : Nat) (u : String) : Except Err Nat :=
  if u = "day" ∨ u = "days" then .ok n
  else if u = "week" ∨ u = "weeks" then .ok (n * 7)
  else if u = "month" ∨ u = "months" then .ok n
  else if u = "quarter" ∨ u = "quarters" then .ok (n * 3)
  else if u = "year" ∨ u = "years" then .ok (n * 12)
  else .error .unsupportedUnit

/-- Embedding of `_parse_forecast_horizon` (lines 486-514).  Order of failures
follows the source: tuple unpacking of `split()` (exactly two tokens), `int()`
conversion, then the `pd.infer_freq(self.actual_data['date'])` call — which
subscripts `None` when no actual data is held, and which itself raises
`ValueError: Need at least 3 dates to infer frequency` when the date series has
fewer than three entries (so the daily fallback of lines 496-498 only covers a
series of length at least 3 whose frequency is unrecognizable) — and finally
the unit table. -/
def parse_forecast_horizon (horizon_str : String) (actual_data : Option Frame) :
    Except Err Nat :=
  match splitTokens horizon_str with
  | [numTok, unitTok] =>
      match toNatDigits? numTok with
      | some n =>
          match actual_data with
          | none => .error .noneType
          | some af =>
              if af.dates.length < 3 then .error .inferFreqValueError
              else convert_unit n unitTok
      | none => .error .valueError
  | _ => .error .valueError

/-- Embedding of `_create_future_dataframe` (lines 474-481).  The first
component is the state of `self.actual_data` after the method ran: the in-place
`pd.to_datetime` conversion of its date column.  Future dates are
`pd.date_range(start=last_date + 1 day, periods=periods, freq='M')`, i.e.
consecutive month-ends regardless of the sampling frequency of the history. -/
def create_future_dataframe (actual_data : Frame) (periods : Nat) : Frame × Frame :=
  let actual2 := actual_data.to_datetime
  let last_date_in_data := maxD actual2.dates
  let future_dates := date_range_M (addOneDay last_date_in_data) periods
  (actual2, ⟨future_dates, true, []⟩)

/-- Embedding of `_generate_future_forecast_data` (lines 518-531), fed the
horizon string its caller checked to be truthy (the source's dead
`if not self.forecast_horizon` guard is unreachable there).  The `ds`
relabeling for Prophet is representation-only (see `prophet_future_forecast`). -/
def generate_future_forecast_data (actual_data : Option Frame) (horizon_str : String) :
    Except Err (Option Frame × Frame) :=
  match parse_forecast_horizon horizon_str actual_data with
  | .error e => .error e
  | .ok periods =>
      match actual_data with
      | none => .error .noneType
      | some af =>
          let r := create_future_dataframe af periods
          .ok (some r.1, r.2)

/-- The rows of `actual_data` surviving `dropna(subset=[target_column])`,
paired as (date, target value).  Empty when the target column is absent. -/
def filtered_actual (af : Frame) (target_column : String) : List (Date × ℚ) :=
  match af.col? target_column with
  | none => []
  | some vals =>
      (af.dates.zip vals).filterMap (fun p =>
        match p.2 with
        | some v => some (p.1, v)
        | none => none)

/-- Embedding of `_process_actual_data` (lines 258-280): check the target
column, drop NaN targets, bound by the maximum date of the filtered data, and
emit `key="actual"` rows with null confidence bounds.  The membership check is
modelled against the value columns (a `date`-named target is not expressible in
this row schema and no claim exercises it). -/
def process_actual_data (af : Frame) (target_column : String) : Except Err (List Row) :=
  match af.col? target_column with
  | none => .error .targetMissing
  | some _ =>
      let fa := filtered_actual af target_column
      let latest := maxD (fa.map Prod.fst)
      .ok ((fa.filter (fun p => decide (Date.le p.1 latest))).map (fun p =>
        ⟨"Actual", "ACTUAL", "actual", p.1, p.2, none, none⟩))

/-- The sort relation of `sort_values(by=['key','model_id','date'])`:
non-decreasing lexicographically in (key, model_id, date), with the pandas
string order (lexicographic on characters). -/
def rowLe (a b : Row) : Prop :=
  a.key.data < b.key.data ∨
    (a.key.data = b.key.data ∧
      (a.model_id.data < b.model_id.data ∨
        (a.model_id.data = b.model_id.data ∧ Date.le a.date b.date)))

instance (a b : Row) : Decidable (rowLe a b) := by
  unfold rowLe; exact inferInstance

instance : IsTrans Row rowLe where
  trans a b c hab hbc := by
    rcases hab with h1 | ⟨h1, h2⟩
    · rcases hbc with h3 | ⟨h3, h4⟩
      · exact Or.inl (lt_trans h1 h3)
      · exact Or.inl (h3 ▸ h1)
    · rcases hbc with h3 | ⟨h3, h4⟩
      · exact Or.inl (h1 ▸ h3)
      · refine Or.inr ⟨h1.trans h3, ?_⟩
        rcases h2 with h5 | ⟨h5, h6⟩
        · rcases h4 with h7 | ⟨h7, h8⟩
          · exact Or.inl (lt_trans h5 h7)
          · exact Or.inl (h7 ▸ h5)
        · rcases h4 with h7 | ⟨h7, h8⟩
          · exact Or.inl (h5 ▸ h7)
          · exact Or.inr ⟨h5.trans h7, Date.le_trans h6 h8⟩

instance : IsTotal Row rowLe where
  total a b := by
    rcases lt_trichotomy a.key.data b.key.data with h1 | h1 | h1
    · exact Or.inl (Or.inl h1)
    · rcases lt_trichotomy a.model_id.data b.model_id.data with h2 | h2 | h2
      · exact Or.inl (Or.inr ⟨h1, Or.inl h2⟩)
      · rcases Date.le_total a.date b.date with h3 | h3
        · exact Or.inl (Or.inr ⟨h1, Or.inr ⟨h2, h3⟩⟩)
        · exact Or.inr (Or.inr ⟨h1.symm, Or.inr ⟨h2.symm, h3⟩⟩)
      · exact Or.inr (Or.inr ⟨h1.symm, Or.inl h2⟩)
    · exact Or.inr (Or.inl h1)

/-- Keep-first global de-duplication, the behavior of
`DataFrame.drop_duplicates()`: `seen` accumulates rows already emitted. -/
def dropDupAux (seen : List Row) : List Row → List Row
  | [] => []
  | x :: xs => if x ∈ seen then dropDupAux seen xs else x :: dropDupAux (x :: seen) xs

/-- Model of `forecast_df.drop_duplicates(inplace=True)`. -/
def dropDuplicates (l : List Row) : List Row := dropDupAux [] l

/-- The finalization step of `forecast` (lines 60-71): building the result
frame, sorting by `(key, model_id, date)` and dropping duplicate rows.  On an
empty result list the frame has no columns at all and `sort_values` raises
`KeyError`.  The date normalization of lines 64-65 is the identity here (dates
are already calendar dates). -/
def finalizeResults (rows : List Row) : Except Err (List Row) :=
  match rows with
  | [] => .error .keyErrorSort
  | _ => .ok (dropDuplicates (List.insertionSort rowLe rows))

/-- Truthiness of `self.forecast_horizon` in `elif self.forecast_horizon:`:
`None` and the empty string are falsy. -/
def hzActive : Option String → Bool
  | none => false
  | some s => if s = "" then false else true

/-- The `if self.new_data is not None` prelude of each loop iteration of
`forecast` (lines 36-37): the new-data rows contributed for one model, empty
when no new data is supplied. -/
def newDataPart (new_data : Option Frame) (model : Model) : Except Err (List Row) :=
  match new_data with
  | some nd => predict_new_data model nd
  | none => .ok []

/-- The future part of one loop iteration of `forecast` (lines 39-53), after
the new-data rows: Prophet models route through `_prophet_future_forecast`,
every other model through `_predict_future_data` (where a `None` return makes
`extend` raise `TypeError`); with no caller future data a truthy horizon
triggers `_generate_future_forecast_data`, which mutates `self.actual_data`. -/
def futurePart (future_data : Option Frame) (hz : Option String)
    (actual? : Option Frame) (model : Model) :
    Except Err (Option Frame × List Row) :=
  match model with
  | .prophet id _ p =>
      match future_data with
      | some fd => .ok (actual?, prophet_future_forecast id p fd)
      | none =>
          if hzActive hz then
            match generate_future_forecast_data actual? (hz.getD "") with
            | .error e => .error e
            | .ok (actual2, fut) => .ok (actual2, prophet_future_forecast id p fut)
          else .ok (actual?, [])
  | m =>
      match future_data with
      | some fd =>
          match predict_future_data m fd with
          | .error e => .error e
          | .ok none => .error .typeErrorNone
          | .ok (some r2) => .ok (actual?, r2)
      | none =>
          if hzActive hz then
            match generate_future_forecast_data actual? (hz.getD "") with
            | .error e => .error e
            | .ok (actual2, fut) =>
                match predict_future_data m fut with
                | .error e => .error e
                | .ok none => .error .typeErrorNone
                | .ok (some r2) => .ok (actual2, r2)
          else .ok (actual?, [])

/-- One iteration of the model loop of `forecast` (lines 35-53) over the state
(current `self.actual_data`, accumulated result rows): the new-data rows are
extended first, then the future rows. -/
def modelStep (future_data new_data : Option Frame) (hz : Option String)
    (acc : Option Frame × List Row) (model : Model) :
    Except Err (Option Frame × List Row) :=
  match newDataPart new_data model with
  | .error e => .error e
  | .ok r1 =>
      match futurePart future_data hz acc.1 model with
      | .error e => .error e
      | .ok (actual2, r2) => .ok (actual2, acc.2 ++ r1 ++ r2)

/-- The model loop of `forecast`, threading the mutable `self.actual_data`
and the accumulated `forecast_results` list. -/
def accumulate (future_data new_data : Option Frame) (hz : Option String) :
    List Model → Option Frame × List Row → Except Err (Option Frame × List Row)
  | [], acc => .ok acc
  | m :: ms, acc =>
      match modelStep future_data new_data hz acc m with
      | .error e => .error e
      | .ok acc2 => accumulate future_data new_data hz ms acc2

/-- The tail of `forecast` after the model loop (lines 55-71): append realized
history rows if `self.actual_data` (post-loop state) is present, then sort and
de-duplicate. -/
def forecastFinish (acc : Option Frame × List Row) (target_column : String) :
    Except Err (Option Frame × List Row) :=
  match acc.1 with
  | some af =>
      match process_actual_data af target_column with
      | .error e => .error e
      | .ok ar =>
          match finalizeResults (acc.2 ++ ar) with
          | .error e => .error e
          | .ok t => .ok (some af, t)
  | none =>
      match finalizeResults acc.2 with
      | .error e => .error e
      | .ok t => .ok (none, t)

/-- Embedding of `forecast` (lines 31-71): run the model loop, then
`forecastFinish`.  The returned pair exposes, alongside the result table, the
final state of `self.actual_data` so that the in-place date-dtype mutation is
observable. -/
def forecast (models : List Model) (actual_data future_data new_data : Option Frame)
    (target_column : String) (hz : Option String) :
    Except Err (Option Frame × List Row) :=
  match accumulate future_data new_data hz models (actual_data, []) with
  | .error e => .error e
  | .ok acc2 => forecastFinish acc2 target_column

/-- Model of `pd.infer_freq` reporting daily frequency: at least three samples,
each successive date one calendar day after the previous. -/
def infer_freq_daily : List Date → Bool
  | a :: b :: rest => (b == addOneDay a) && infer_freq_daily (b :: rest)
  | _ => true

/-- Daily-frequency inference including the pandas minimum-length requirement. -/
def infer_freq_is_daily (l : List Date) : Bool :=
  decide (3 ≤ l.length) && infer_freq_daily l

theorem dropDupAux_sublist (l : List Row) : ∀ seen, (dropDupAux seen l).Sublist l := by
  induction l with
  | nil => intro seen; simp [dropDupAux]
  | cons x xs ih =>
    intro seen
    unfold dropDupAux
    split
    · exact (ih seen).trans (List.sublist_cons_self x xs)
    · exact (ih (x :: seen)).cons₂ x

theorem dropDupAux_nodup (l : List Row) :
    ∀ seen, (dropDupAux seen l).Nodup ∧ ∀ x ∈ dropDupAux seen l, x ∉ seen := by
  induction l with
  | nil => intro seen; simp [dropDupAux]
  | cons x xs ih =>
    intro seen
    unfold dropDupAux
    split
    next hmem => exact ih seen
    next hmem =>
      obtain ⟨ih1, ih2⟩ := ih (x :: seen)
      refine ⟨List.nodup_cons.mpr ⟨fun hc => ?_, ih1⟩, ?_⟩
      · exact (ih2 x hc) (List.mem_cons_self x seen)
      · intro z hz
        rcases List.mem_cons.mp hz with h1 | h1
        · exact h1 ▸ hmem
        · intro hzs
          exact (ih2 z h1) (List.mem_cons_of_mem x hzs)

theorem dropDuplicates_sublist (l : List Row) : (dropDuplicates l).Sublist l :=
  dropDupAux_sublist l []

theorem dropDuplicates_nodup (l : List Row) : (dropDuplicates l).Nodup :=
  (dropDupAux_nodup l []).1

theorem finalizeResults_ok_eq {rows t : List Row}
    (h : finalizeResults rows = .ok t) :
    t = dropDuplicates (List.insertionSort rowLe rows) := by
  unfold finalizeResults at h
  split at h
  · exact absurd h (by simp)
  · exact (Except.ok.injEq _ _ ▸ h).symm

theorem finalizeResults_sorted_nodup {rows t : List Row}
    (h : finalizeResults rows = .ok t) :
    t.Pairwise rowLe ∧ t.Nodup := by
  rw [finalizeResults_ok_eq h]
  constructor
  · exact List.Pairwise.sublist (dropDuplicates_sublist _)
      (List.sorted_insertionSort rowLe rows)
  · exact dropDuplicates_nodup _

theorem mem_of_mem_finalizeResults {rows t : List Row}
    (h : finalizeResults rows = .ok t) {x : Row} (hx : x ∈ t) : x ∈ rows := by
  rw [finalizeResults_ok_eq h] at hx
  exact (List.perm_insertionSort rowLe rows).subset
    ((dropDuplicates_sublist _).subset hx)

theorem key_of_prophet_future_forecast {id : String} {p : Frame → List PRow}
    {fd : Frame} {x : Row} (hx : x ∈ prophet_future_forecast id p fd) :
    x.key = "future" := by
  unfold prophet_future_forecast at hx
  obtain ⟨r, _, hr⟩ := List.mem_map.mp hx
  rw [← hr]

theorem key_of_predict_future_data {m : Model} {fd : Frame} {rs : List Row}
    (h : predict_future_data m fd = .ok (some rs)) {x : Row} (hx : x ∈ rs) :
    x.key = "future" := by
  rcases m with ⟨id, desc, p⟩ | ⟨id, desc, p⟩ | ⟨mid, mname, fns, p⟩ | ⟨id, desc, tcol, p⟩ | b
  · simp only [predict_future_data, Except.ok.injEq, Option.some.injEq] at h
    rw [← h] at hx
    obtain ⟨r, _, hr⟩ := List.mem_map.mp hx
    rw [← hr]
  · simp only [predict_future_data, Except.ok.injEq, Option.some.injEq] at h
    rw [← h] at hx
    obtain ⟨r, _, hr⟩ := List.mem_map.mp hx
    rw [← hr]
  · simp only [predict_future_data] at h
    split at h
    · simp only [Except.ok.injEq, Option.some.injEq] at h
      rw [← h] at hx
      obtain ⟨r, _, hr⟩ := List.mem_map.mp hx
      rw [← hr]
    · exact absurd h (by simp)
  · simp only [predict_future_data, Except.ok.injEq, Option.some.injEq] at h
    rw [← h] at hx
    obtain ⟨r, _, hr⟩ := List.mem_map.mp hx
    rw [← hr]
  · simp [predict_future_data] at h

theorem key_of_predict_new_data {m : Model} {nd : Frame} {rs : List Row}
    (h : predict_new_data m nd = .ok rs) {x : Row} (hx : x ∈ rs) :
    x.key = "prediction" := by
  rcases m with ⟨id, desc, p⟩ | ⟨id, desc, p⟩ | ⟨mid, mname, fns, p⟩ | ⟨id, desc, tcol, p⟩ | b
  · simp only [predict_new_data, Except.ok.injEq] at h
    rw [← h] at hx
    obtain ⟨r, _, hr⟩ := List.mem_map.mp hx
    rw [← hr]
  · simp only [predict_new_data, Except.ok.injEq] at h
    rw [← h] at hx
    obtain ⟨r, _, hr⟩ := List.mem_map.mp hx
    rw [← hr]
  · simp only [predict_new_data] at h
    split at h
    · simp only [Except.ok.injEq] at h
      rw [← h] at hx
      obtain ⟨r, _, hr⟩ := List.mem_map.mp hx
      rw [← hr]
    · exact absurd h (by simp)
  · simp only [predict_new_data, Except.ok.injEq] at h
    rw [← h] at hx
    obtain ⟨r, _, hr⟩ := List.mem_map.mp hx
    rw [← hr]
  · simp [predict_new_data] at h

theorem generate_future_forecast_data_state {a? : Option Frame} {hs : String}
    {a2 : Option Frame} {fut : Frame}
    (h : generate_future_forecast_data a? hs = .ok (a2, fut)) :
    ∃ af, a? = some af ∧ a2 = some af.to_datetime := by
  unfold generate_future_forecast_data at h
  cases hp : parse_forecast_horizon hs a? with
  | error e => rw [hp] at h; simp at h
  | ok periods =>
    rw [hp] at h
    cases a? with
    | none => simp at h
    | some af =>
      refine ⟨af, rfl, ?_⟩
      simp only [create_future_dataframe, Except.ok.injEq, Prod.mk.injEq] at h
      exact h.1.symm

theorem newDataPart_keys {nw : Option Frame} {m : Model} {r1 : List Row}
    (h : newDataPart nw m = .ok r1) : ∀ x ∈ r1, x.key = "prediction" := by
  unfold newDataPart at h
  split at h
  · exact fun x hx => key_of_predict_new_data h hx
  · simp only [Except.ok.injEq] at h
    intro x hx
    rw [← h] at hx
    exact absurd hx (List.not_mem_nil x)

theorem futurePart_state {fu : Option Frame} {hz : Option String}
    {a? : Option Frame} {m : Model} {a2 : Option Frame} {r2 : List Row}
    (h : futurePart fu hz a? m = .ok (a2, r2)) :
    a2 = a? ∨ ∃ af, a? = some af ∧ a2 = some af.to_datetime := by
  rcases m with ⟨id, desc, p⟩ | ⟨id, desc, p⟩ | ⟨mid, mname, fns, p⟩ | ⟨id, desc, tcol, p⟩ | b <;>
    simp only [futurePart] at h
  case prophet =>
    split at h
    · simp only [Except.ok.injEq, Prod.mk.injEq] at h
      exact Or.inl h.1.symm
    · split at h
      · split at h
        · exact absurd h (by simp)
        next a3 fut hgen =>
          simp only [Except.ok.injEq, Prod.mk.injEq] at h
          rcases generate_future_forecast_data_state hgen with ⟨af, h1, h2⟩
          exact Or.inr ⟨af, h1, h.1 ▸ h2⟩
      · simp only [Except.ok.injEq, Prod.mk.injEq] at h
        exact Or.inl h.1.symm
  all_goals
    split at h
    · split at h
      · exact absurd h (by simp)
      · exact absurd h (by simp)
      · simp only [Except.ok.injEq, Prod.mk.injEq] at h
        exact Or.inl h.1.symm
    · split at h
      · split at h
        · exact absurd h (by simp)
        next a3 fut hgen =>
          split at h
          · exact absurd h (by simp)
          · exact absurd h (by simp)
          · simp only [Except.ok.injEq, Prod.mk.injEq] at h
            rcases generate_future_forecast_data_state hgen with ⟨af, h1, h2⟩
            exact Or.inr ⟨af, h1, h.1 ▸ h2⟩
      · simp only [Except.ok.injEq, Prod.mk.injEq] at h
        exact Or.inl h.1.symm

theorem futurePart_rows {fu : Option Frame} {hz : Option String}
    {a? : Option Frame} {m : Model} {a2 : Option Frame} {r2 : List Row}
    (h : futurePart fu hz a? m = .ok (a2, r2)) :
    ∀ x ∈ r2, x.key = "future" := by
  rcases m with ⟨id, desc, p⟩ | ⟨id, desc, p⟩ | ⟨mid, mname, fns, p⟩ | ⟨id, desc, tcol, p⟩ | b <;>
    simp only [futurePart] at h
  case prophet =>
    split at h
    · simp only [Except.ok.injEq, Prod.mk.injEq] at h
      intro x hx
      rw [← h.2] at hx
      exact key_of_prophet_future_forecast hx
    · split at h
      · split at h
        · exact absurd h (by simp)
        · simp only [Except.ok.injEq, Prod.mk.injEq] at h
          intro x hx
          rw [← h.2] at hx
          exact key_of_prophet_future_forecast hx
      · simp only [Except.ok.injEq, Prod.mk.injEq] at h
        intro x hx
        rw [← h.2] at hx
        exact absurd hx (List.not_mem_nil x)
  all_goals
    split at h
    · split at h
      · exact absurd h (by simp)
      · exact absurd h (by simp)
      next rs hfut =>
        simp only [Except.ok.injEq, Prod.mk.injEq] at h
        intro x hx
        rw [← h.2] at hx
        exact key_of_predict_future_data hfut hx
    · split at h
      · split at h
        · exact absurd h (by simp)
        next a3 fut hgen =>
          split at h
          · exact absurd h (by simp)
          · exact absurd h (by simp)
          next rs hfut =>
            simp only [Except.ok.injEq, Prod.mk.injEq] at h
            intro x hx
            rw [← h.2] at hx
            exact key_of_predict_future_data hfut hx
      · simp only [Except.ok.injEq, Prod.mk.injEq] at h
        intro x hx
        rw [← h.2] at hx
        exact absurd hx (List.not_mem_nil x)

theorem modelStep_state {fu nw : Option Frame} {hz : Option String}
    {a? : Option Frame} {rows : List Row} {m : Model}
    {a2 : Option Frame} {rows2 : List Row}
    (h : modelStep fu nw hz (a?, rows) m = .ok (a2, rows2)) :
    a2 = a? ∨ ∃ af, a? = some af ∧ a2 = some af.to_datetime := by
  unfold modelStep at h
  split at h
  · exact absurd h (by simp)
  · split at h
    · exact absurd h (by simp)
    next a3 r2 hfut =>
      simp only [Except.ok.injEq, Prod.mk.injEq] at h
      rcases futurePart_state hfut with h1 | ⟨af, h1, h2⟩
      · exact Or.inl (h.1 ▸ h1)
      · exact Or.inr ⟨af, h1, h.1 ▸ h2⟩

theorem modelStep_rows {fu nw : Option Frame} {hz : Option String}
    {a? : Option Frame} {rows : List Row} {m : Model}
    {a2 : Option Frame} {rows2 : List Row}
    (h : modelStep fu nw hz (a?, rows) m = .ok (a2, rows2)) :
    ∀ x ∈ rows2, x ∈ rows ∨ x.key = "prediction" ∨ x.key = "future" := by
  unfold modelStep at h
  split at h
  · exact absurd h (by simp)
  next r1 hnew =>
    have hr1 := newDataPart_keys hnew
    split at h
    · exact absurd h (by simp)
    next a3 r2 hfut =>
      have hr2 := futurePart_rows hfut
      simp only [Except.ok.injEq, Prod.mk.injEq] at h
      intro x hx
      rw [← h.2] at hx
      rcases List.mem_append.mp hx with h1 | h1
      · rcases List.mem_append.mp h1 with h2 | h2
        · exact Or.inl h2
        · exact Or.inr (Or.inl (hr1 x h2))
      · exact Or.inr (Or.inr (hr2 x h1))

theorem accumulate_state {fu nw : Option Frame} {hz : Option String} :
    ∀ {ms : List Model} {acc : Option Frame × List Row}
      {a2 : Option Frame} {rows2 : List Row},
      accumulate fu nw hz ms acc = .ok (a2, rows2) →
      a2 = acc.1 ∨ ∃ af, acc.1 = some af ∧ a2 = some af.to_datetime := by
  intro ms
  induction ms with
  | nil =>
    intro acc a2 rows2 h
    simp only [accumulate, Except.ok.injEq] at h
    exact Or.inl (by rw [h])
  | cons m ms ih =>
    intro acc a2 rows2 h
    rcases acc with ⟨a0, rows0⟩
    unfold accumulate at h
    split at h
    · exact absurd h (by simp)
    next acc1 hstep =>
      rcases acc1 with ⟨a1, rows1⟩
      rcases ih h with h1 | ⟨af, h1, h2⟩
      · rcases modelStep_state hstep with h3 | ⟨af, h3, h4⟩
        · exact Or.inl (by rw [h1, h3])
        · exact Or.inr ⟨af, h3, by rw [h1, h4]⟩
      · rcases modelStep_state hstep with h3 | ⟨af2, h3, h4⟩
        · rw [h3] at h1
          exact Or.inr ⟨af, h1, h2⟩
        · rw [h4] at h1
          injection h1 with h1
          refine Or.inr ⟨af2, h3, ?_⟩
          rw [h2, ← h1]
          rfl

theorem accumulate_rows {fu nw : Option Frame} {hz : Option String} :
    ∀ {ms : List Model} {acc : Option Frame × List Row}
      {a2 : Option Frame} {rows2 : List Row},
      accumulate fu nw hz ms acc = .ok (a2, rows2) →
      ∀ x ∈ rows2, x ∈ acc.2 ∨ x.key = "prediction" ∨ x.key = "future" := by
  intro ms
  induction ms with
  | nil =>
    intro acc a2 rows2 h x hx
    simp only [accumulate, Except.ok.injEq] at h
    rw [h]
    exact Or.inl hx
  | cons m ms ih =>
    intro acc a2 rows2 h x hx
    rcases acc with ⟨a0, rows0⟩
    unfold accumulate at h
    split at h
    · exact absurd h (by simp)
    next acc1 hstep =>
      rcases acc1 with ⟨a1, rows1⟩
      rcases ih h x hx with h1 | h1
      · exact modelStep_rows hstep x h1
      · exact Or.inr h1

theorem forecastFinish_cases {a1 : Option Frame} {rows1 : List Row} {tc : String}
    {st : Option Frame} {t : List Row}
    (h : forecastFinish (a1, rows1) tc = .ok (st, t)) :
    (∃ af ar, a1 = some af ∧ st = some af ∧ process_actual_data af tc = .ok ar ∧
      finalizeResults (rows1 ++ ar) = .ok t) ∨
    (a1 = none ∧ st = none ∧ finalizeResults rows1 = .ok t) := by
  unfold forecastFinish at h
  split at h
  next af heq =>
    split at h
    · exact absurd h (by simp)
    next ar hproc =>
      split at h
      · exact absurd h (by simp)
      next t2 hfin =>
        simp only [Except.ok.injEq, Prod.mk.injEq] at h
        exact Or.inl ⟨af, ar, heq, h.1.symm, hproc, by rw [← h.2]; exact hfin⟩
  next heq =>
    split at h
    · exact absurd h (by simp)
    next t2 hfin =>
      simp only [Except.ok.injEq, Prod.mk.injEq] at h
      exact Or.inr ⟨heq, h.1.symm, by rw [← h.2]; exact hfin⟩

/-- Case analysis of a successful `forecast` call into its pipeline equations. -/
theorem forecast_ok_cases {models : List Model}
    {actual_data future_data new_data : Option Frame}
    {tc : String} {hz : Option String} {st : Option Frame} {t : List Row}
    (h : forecast models actual_data future_data new_data tc hz = .ok (st, t)) :
    (∃ rows af ar,
      accumulate future_data new_data hz models (actual_data, []) = .ok (some af, rows) ∧
      st = some af ∧ process_actual_data af tc = .ok ar ∧
      finalizeResults (rows ++ ar) = .ok t) ∨
    (∃ rows,
      accumulate future_data new_data hz models (actual_data, []) = .ok (none, rows) ∧
      st = none ∧ finalizeResults rows = .ok t) := by
  unfold forecast at h
  split at h
  · exact absurd h (by simp)
  next acc1 hacc =>
    rcases acc1 with ⟨a1, rows1⟩
    rcases forecastFinish_cases h with ⟨af, ar, h1, h2, h3, h4⟩ | ⟨h1, h2, h3⟩
    · exact Or.inl ⟨rows1, af, ar, h1 ▸ hacc, h2, h3, h4⟩
    · exact Or.inr ⟨rows1, h1 ▸ hacc, h2, h3⟩

theorem process_actual_data_mem {af : Frame} {tc : String} {ar : List Row}
    (h : process_actual_data af tc = .ok ar) {x : Row} (hx : x ∈ ar) :
    x.model_id = "Actual" ∧ x.model_desc = "ACTUAL" ∧ x.key = "actual" ∧
    x.conf_lo = none ∧ x.conf_hi = none ∧
    (x.date, x.value) ∈ filtered_actual af tc ∧
    Date.le x.date (maxD ((filtered_actual af tc).map Prod.fst)) := by
  unfold process_actual_data at h
  split at h
  · exact absurd h (by simp)
  · simp only [Except.ok.injEq] at h
    rw [← h] at hx
    obtain ⟨p, hp, hpx⟩ := List.mem_map.mp hx
    obtain ⟨hpfa, hpdec⟩ := List.mem_filter.mp hp
    refine ⟨by rw [← hpx], by rw [← hpx], by rw [← hpx], by rw [← hpx], by rw [← hpx],
      ?_, ?_⟩
    · rw [← hpx]
      simpa using hpfa
    · rw [← hpx]
      exact of_decide_eq_true hpdec

/- Concrete frames and tables used by the witnesses and counterexamples below. -/

/-- A history sampled daily (three consecutive January days), dates held as
strings in the caller's frame (dtype not yet datetime). -/
def demo_daily : Frame := ⟨[⟨2023, 1, 8⟩, ⟨2023, 1, 9⟩, ⟨2023, 1, 10⟩], false, []⟩

/-- A two-row actual-data frame with target column `y`, dates out of order. -/
def demo_actual : Frame := ⟨[⟨2023, 1, 2⟩, ⟨2023, 1, 1⟩], true, [("y", [some 3, some 4])]⟩

/-- The table `forecast` produces from `demo_actual` alone. -/
def demo_table : List Row :=
  [⟨"Actual", "ACTUAL", "actual", ⟨2023, 1, 1⟩, 4, none, none⟩,
   ⟨"Actual", "ACTUAL", "actual", ⟨2023, 1, 2⟩, 3, none, none⟩]

/-- The first row of `demo_table`. -/
def demo_row : Row := ⟨"Actual", "ACTUAL", "actual", ⟨2023, 1, 1⟩, 4, none, none⟩

/-- A one-row actual-data frame with target column `y`. -/
def demo_small : Frame := ⟨[⟨2023, 1, 1⟩], true, [("y", [some 1])]⟩

/-- A three-row daily actual-data frame (long enough for `pd.infer_freq`)
whose date column is not yet datetime dtype. -/
def demo_f4 : Frame :=
  ⟨[⟨2023, 1, 13⟩, ⟨2023, 1, 14⟩, ⟨2023, 1, 15⟩], false,
    [("y", [some 2, some 2, some 2])]⟩

/-- The table `forecast` produces from `demo_f4` alone (the Prophet model of
the C4 run predicts no rows). -/
def demo_f4_table : List Row :=
  [⟨"Actual", "ACTUAL", "actual", ⟨2023, 1, 13⟩, 2, none, none⟩,
   ⟨"Actual", "ACTUAL", "actual", ⟨2023, 1, 14⟩, 2, none, none⟩,
   ⟨"Actual", "ACTUAL", "actual", ⟨2023, 1, 15⟩, 2, none, none⟩]

/-- A two-date actual-data frame, shorter than `pd.infer_freq`'s minimum of
three dates. -/
def demo_two : Frame := ⟨[⟨2023, 1, 1⟩, ⟨2023, 1, 2⟩], true, []⟩

/-- A future-data frame carrying only feature column `x`. -/
def demo_f8 : Frame := ⟨[⟨2023, 1, 1⟩], true, [("x", [some 1])]⟩

/-- A two-date future frame for the ARIMA adapter. -/
def demo_fut2 : Frame := ⟨[⟨2024, 1, 31⟩, ⟨2024, 2, 29⟩], true, []⟩

/-- C1: the spec claims the synthesized margin is `0.05 × |value|`, giving
`conf_lo ≤ value ≤ conf_hi` for every point estimate and bounds `[-52.5, -47.5]`
at `-50`.  The code (lines 157-160, 193-195, 239-241, 368-370) computes
`margin = 0.05 × value` with the signed value, so at the point estimates
`[100, -50]` the ARIMA future path emits `(95, 105)` but `(-47.5, -52.5)`:
for the negative estimate `conf_lo = -47.5` lies above the value and above
`conf_hi`, an inverted interval.  The positive case matches the spec; the
negative case is a code bug relative to the documented lower/upper meaning of
the bounds. -/
theorem arima_conf_synthesis_signed_margin :
    predict_future_data (.arima "arima_1" "ARIMA" (fun _ => [100, -50])) demo_fut2 =
      .ok (some
        [⟨"arima_1", "ARIMA", "future", ⟨2024, 1, 31⟩, 100, some 95, some 105⟩,
         ⟨"arima_1", "ARIMA", "future", ⟨2024, 2, 29⟩, -50, some (-47.5), some (-52.5)⟩]) ∧
    ¬ ((-47.5 : ℚ) ≤ -50) := by
  constructor
  · simp only [predict_future_data, error_margin, demo_fut2, List.zip, List.zipWith, List.map]
    norm_num
  · norm_num

/-- C2 counterexample: against the daily-sampled history `demo_daily`
(`pd.infer_freq` would report daily frequency) and the horizon `"3 day"`
(period count 3), the claim says the generated future dates start at
`last + 1 day = 2023-01-11` and step by the inferred daily frequency.  The
code instead produces the month-ends `[2023-01-31, 2023-02-28, 2023-03-31]`
because `_create_future_dataframe` hard-codes `freq='M'`. -/
theorem future_dates_ignore_inferred_frequency :
    infer_freq_is_daily demo_daily.dates = true ∧
    generate_future_forecast_data (some demo_daily) "3 day" =
      .ok (some demo_daily.to_datetime,
        ⟨[⟨2023, 1, 31⟩, ⟨2023, 2, 28⟩, ⟨2023, 3, 31⟩], true, []⟩) ∧
    addOneDay (maxD demo_daily.dates) = ⟨2023, 1, 11⟩ ∧
    (⟨2023, 1, 31⟩ : Date) ≠ ⟨2023, 1, 11⟩ := by
  refine ⟨by decide, by decide, by decide, by decide⟩

/-- C2 amended: for every history of valid dates and every period count `n`,
the generated future sequence has exactly `n` dates, equals the consecutive
month-end sequence (pandas `freq='M'`) anchored at the month of
`last_historical_date + 1 day`, is strictly increasing (hence no duplicates and
no gaps relative to that month-end frequency), and every generated date — here
an arbitrary member `x` — lies strictly after the last historical date.  The
inferred sampling frequency plays no role in the generation. -/
theorem create_future_dataframe_month_end_sequence (af : Frame) (n : Nat) (x : Date)
    (hv : ∀ d ∈ af.dates, ValidDate d)
    (hx : x ∈ (create_future_dataframe af n).2.dates) :
    (create_future_dataframe af n).2.dates.length = n ∧
    (create_future_dataframe af n).2.dates =
      date_range_M (addOneDay (maxD af.dates)) n ∧
    (create_future_dataframe af n).2.dates.Pairwise Date.lt ∧
    Date.lt (maxD af.dates) x := by
  have heq : (create_future_dataframe af n).2.dates =
      date_range_M (addOneDay (maxD af.dates)) n := rfl
  refine ⟨?_, heq, ?_, ?_⟩
  · rw [heq]; simp [date_range_M]
  · rw [heq]
    unfold date_range_M
    exact List.Pairwise.map _
      (fun a b hab => monthEnd_lt_monthEnd (by omega))
      (List.pairwise_lt_range n)
  · rw [heq] at hx
    unfold date_range_M at hx
    obtain ⟨k, hk, hkx⟩ := List.mem_map.mp hx
    have hvmax : ValidDate (maxD af.dates) := validDate_maxD hv
    have h1 : Date.lt (maxD af.dates) (addOneDay (maxD af.dates)) := lt_addOneDay hvmax
    have h2 : Date.le (addOneDay (maxD af.dates))
        (monthEnd (monthIdx (addOneDay (maxD af.dates)))) :=
      le_monthEnd_monthIdx (validDate_addOneDay hvmax)
    have h3 : Date.le (monthEnd (monthIdx (addOneDay (maxD af.dates))))
        (monthEnd (monthIdx (addOneDay (maxD af.dates)) + k)) :=
      monthEnd_le_monthEnd (Nat.le_add_right _ k)
    rw [← hkx]
    exact Date.lt_of_lt_of_le h1 (Date.le_trans h2 h3)

/-- C2 amended, witnessed on the concrete daily history and `n = 2`. -/
theorem create_future_dataframe_month_end_sequence_witness :
    ((∀ d ∈ demo_daily.dates, ValidDate d) ∧
      (⟨2023, 1, 31⟩ : Date) ∈ (create_future_dataframe demo_daily 2).2.dates) ∧
    ((create_future_dataframe demo_daily 2).2.dates.length = 2 ∧
     (create_future_dataframe demo_daily 2).2.dates =
       date_range_M (addOneDay (maxD demo_daily.dates)) 2 ∧
     (create_future_dataframe demo_daily 2).2.dates.Pairwise Date.lt ∧
     Date.lt (maxD demo_daily.dates) ⟨2023, 1, 31⟩) :=
  ⟨⟨by decide, by decide⟩,
    create_future_dataframe_month_end_sequence demo_daily 2 ⟨2023, 1, 31⟩
      (by decide) (by decide)⟩

/-- C3 counterexample: the claim says a model lacking a `predict` capability
makes `forecast()` raise a fatal `NotPredictable` error before any adapter is
invoked.  With a predict-less model and only actual data, `forecast` completes
normally and returns the actual-data table — no error of any kind is raised. -/
theorem forecast_no_predict_validation_counterexample :
    Model.hasPredictMethod (.other false) = false ∧
    forecast [.other false] (some demo_small) none none "y" none =
      .ok (some demo_small,
        [⟨"Actual", "ACTUAL", "actual", ⟨2023, 1, 1⟩, 1, none, none⟩]) := by
  refine ⟨rfl, by decide⟩

/-- C3 amended: `forecast` never performs the predict-capability check.  The
check exists only in `_validate_model_predict_method` (which raises
`AttributeError`, not for any adapter to see, and is invoked solely by
`_process_forecast_data`, a helper `forecast` does not call).  A model lacking
`predict`, given no new data, no future data and no horizon, is silently
skipped: `forecast` behaves exactly as if the model were absent. -/
theorem forecast_skips_predict_validation (m : Model) (af : Frame) (tc : String)
    (h : m.hasPredictMethod = false) :
    validate_model_predict_method m = .error .attributeError ∧
    forecast [m] (some af) none none tc none =
      forecast [] (some af) none none tc none := by
  rcases m with ⟨id, desc, p⟩ | ⟨id, desc, p⟩ | ⟨mid, mname, fns, p⟩ | ⟨id, desc, tcol, p⟩ | b
  · simp [Model.hasPredictMethod] at h
  · simp [Model.hasPredictMethod] at h
  · simp [Model.hasPredictMethod] at h
  · simp [Model.hasPredictMethod] at h
  · cases b
    · exact ⟨rfl, rfl⟩
    · simp [Model.hasPredictMethod] at h

/-- C3 amended, witnessed on a concrete predict-less model and actual frame. -/
theorem forecast_skips_predict_validation_witness :
    Model.hasPredictMethod (.other false) = false ∧
    (validate_model_predict_method (.other false) = .error .attributeError ∧
      forecast [.other false] (some demo_small) none none "y" none =
        forecast [] (some demo_small) none none "y" none) :=
  ⟨rfl, forecast_skips_predict_validation (.other false) demo_small "y" rfl⟩

/-- C4 counterexample: the claim says no helper mutates the caller-supplied
actual data in place.  A horizon-driven run over a three-row daily history
(long enough for `pd.infer_freq`, so `_parse_forecast_horizon` succeeds)
converts `self.actual_data`'s date column to datetime dtype in place
(`_create_future_dataframe`, line 476): the final actual-data state differs
from the caller's frame. -/
theorem forecast_mutates_actual_dtype_counterexample :
    forecast [.prophet "p1" "Prophet model" (fun _ => [])] (some demo_f4)
        none none "y" (some "1 month") =
      .ok (some demo_f4.to_datetime, demo_f4_table) ∧
    some demo_f4.to_datetime ≠ some demo_f4 := by
  refine ⟨by decide, by decide⟩

/-- C4 amended: the only in-place mutation a `forecast` call performs on its
inputs is the datetime-dtype conversion of the actual data's date column, done
by `_create_future_dataframe` when a horizon-driven future frame is generated;
the date values themselves are unchanged, and future/new data and the
additive-seasonal rename target are fresh structures.  Formally: the final
actual-data state is either the caller's frame unchanged or that frame with
only the dtype flag set. -/
theorem forecast_actual_state_datetime_only (models : List Model)
    (actual_data future_data new_data : Option Frame) (tc : String)
    (hz : Option String) (st : Option Frame) (t : List Row)
    (h : forecast models actual_data future_data new_data tc hz = .ok (st, t)) :
    st = actual_data ∨
      ∃ af, actual_data = some af ∧ st = some af.to_datetime := by
  rcases forecast_ok_cases h with ⟨rows, af, ar, hacc, hst, _, _⟩ | ⟨rows, hacc, hst, _⟩
  · rcases accumulate_state hacc with h1 | ⟨af2, h1, h2⟩
    · exact Or.inl (hst.trans h1)
    · exact Or.inr ⟨af2, h1, hst.trans h2⟩
  · rcases accumulate_state hacc with h1 | ⟨af2, h1, h2⟩
    · exact Or.inl (hst.trans h1)
    · exact Option.noConfusion h2

/-- C4 amended, witnessed on the horizon-driven Prophet run over the
three-row daily history. -/
theorem forecast_actual_state_datetime_only_witness :
    forecast [.prophet "p1" "Prophet model" (fun _ => [])] (some demo_f4)
        none none "y" (some "1 month") =
      .ok (some demo_f4.to_datetime, demo_f4_table) ∧
    (some demo_f4.to_datetime = some demo_f4 ∨
      ∃ af, some demo_f4 = some af ∧ some demo_f4.to_datetime = some af.to_datetime) :=
  ⟨by decide,
    forecast_actual_state_datetime_only [.prophet "p1" "Prophet model" (fun _ => [])]
      (some demo_f4) none none "y" (some "1 month") (some demo_f4.to_datetime)
      demo_f4_table (by decide)⟩

/-- C5 counterexample: against a two-date history (below `pd.infer_freq`'s
minimum of three), the parser raises pandas' `Need at least 3 dates to infer
frequency` `ValueError` at line 493 for every well-formed horizon string — it
neither returns the claimed period count for `"2 week"` nor reaches the
unsupported-unit error for `"2 fortnight"`. -/
theorem parse_horizon_short_history_counterexample :
    demo_two.dates.length = 2 ∧
    parse_forecast_horizon "2 week" (some demo_two) = .error .inferFreqValueError ∧
    parse_forecast_horizon "2 week" (some demo_two) ≠ .ok 14 ∧
    parse_forecast_horizon "2 fortnight" (some demo_two) ≠ .error .unsupportedUnit := by
  refine ⟨by decide, by decide, by decide, by decide⟩

/-- C5 amended: for every horizon string that tokenizes to `<integer> <unit>`,
provided the historical date series has at least the three entries
`pd.infer_freq` requires (for shorter histories the parser raises that
`ValueError` before consulting the unit table), the parser returns `n` for
day(s), `n*7` for week(s), `n` for month(s), `n*3` for quarter(s), `n*12` for
year(s), and raises the unsupported-unit `ValueError` for any other unit. -/
theorem parse_forecast_horizon_unit_policy (hs numTok unitTok : String)
    (af : Frame) (n : Nat)
    (hsplit : splitTokens hs = [numTok, unitTok])
    (hnum : toNatDigits? numTok = some n)
    (hlen : 3 ≤ af.dates.length) :
    parse_forecast_horizon hs (some af) =
      (if unitTok = "day" ∨ unitTok = "days" then .ok n
       else if unitTok = "week" ∨ unitTok = "weeks" then .ok (n * 7)
       else if unitTok = "month" ∨ unitTok = "months" then .ok n
       else if unitTok = "quarter" ∨ unitTok = "quarters" then .ok (n * 3)
       else if unitTok = "year" ∨ unitTok = "years" then .ok (n * 12)
       else .error .unsupportedUnit) := by
  simp only [parse_forecast_horizon, hsplit, hnum, convert_unit]
  rw [if_neg (by omega)]

/-- C5 amended, witnessed on `"2 week"` against the three-date history: period
count 14. -/
theorem parse_forecast_horizon_unit_policy_witness :
    (splitTokens "2 week" = ["2", "week"] ∧ toNatDigits? "2" = some 2 ∧
      3 ≤ demo_daily.dates.length) ∧
    parse_forecast_horizon "2 week" (some demo_daily) = .ok 14 :=
  ⟨⟨by decide, by decide, by decide⟩,
    (parse_forecast_horizon_unit_policy "2 week" "2" "week" demo_daily 2
      (by decide) (by decide) (by decide)).trans (by decide)⟩

/-- C6: every table a successful `forecast` call returns is non-decreasing
lexicographically in `(key, model_id, date)` on adjacent rows (stated as
`Pairwise`, which for the transitive `rowLe` is equivalent) and contains no two
field-wise identical rows. -/
theorem forecast_table_sorted_nodup (models : List Model)
    (actual_data future_data new_data : Option Frame) (tc : String)
    (hz : Option String) (st : Option Frame) (t : List Row)
    (h : forecast models actual_data future_data new_data tc hz = .ok (st, t)) :
    t.Pairwise rowLe ∧ t.Nodup := by
  rcases forecast_ok_cases h with ⟨rows, af, ar, _, _, _, hfin⟩ | ⟨rows, _, _, hfin⟩
  · exact finalizeResults_sorted_nodup hfin
  · exact finalizeResults_sorted_nodup hfin

/-- C6 witnessed on a concrete actual-data run whose input rows arrive
unsorted. -/
theorem forecast_table_sorted_nodup_witness :
    forecast [] (some demo_actual) none none "y" none =
      .ok (some demo_actual, demo_table) ∧
    demo_table.Pairwise rowLe ∧ demo_table.Nodup :=
  ⟨by decide,
    forecast_table_sorted_nodup [] (some demo_actual) none none "y" none
      (some demo_actual) demo_table (by decide)⟩

/-- C7: in every table a successful `forecast` call returns, a row with
`key = "actual"` has null confidence bounds, model id `"Actual"`, and
originates from a historical row whose target value is non-null (a member of
the NaN-filtered actual data), with date bounded by the maximum date of that
filtered data. -/
theorem actual_rows_null_interval_and_origin (models : List Model)
    (actual_data future_data new_data : Option Frame) (tc : String)
    (hz : Option String) (st : Option Frame) (t : List Row) (r : Row)
    (h : forecast models actual_data future_data new_data tc hz = .ok (st, t))
    (hr : r ∈ t) (hk : r.key = "actual") :
    r.conf_lo = none ∧ r.conf_hi = none ∧ r.model_id = "Actual" ∧
    ∃ af, st = some af ∧ (r.date, r.value) ∈ filtered_actual af tc ∧
      Date.le r.date (maxD ((filtered_actual af tc).map Prod.fst)) := by
  rcases forecast_ok_cases h with ⟨rows, af, ar, hacc, hst, hproc, hfin⟩ |
    ⟨rows, hacc, hst, hfin⟩
  · have hx := mem_of_mem_finalizeResults hfin hr
    rcases List.mem_append.mp hx with h1 | h1
    · rcases accumulate_rows hacc r h1 with h2 | h2
      · exact absurd h2 (List.not_mem_nil r)
      · rw [hk] at h2
        rcases h2 with h2 | h2 <;> exact absurd h2 (by decide)
    · obtain ⟨g1, g2, g3, g4, g5, g6, g7⟩ := process_actual_data_mem hproc h1
      exact ⟨g4, g5, g1, af, hst, g6, g7⟩
  · have hx := mem_of_mem_finalizeResults hfin hr
    rcases accumulate_rows hacc r hx with h2 | h2
    · exact absurd h2 (List.not_mem_nil r)
    · rw [hk] at h2
      rcases h2 with h2 | h2 <;> exact absurd h2 (by decide)

/-- C7 witnessed on the concrete actual-data run and its first output row. -/
theorem actual_rows_null_interval_and_origin_witness :
    (forecast [] (some demo_actual) none none "y" none =
        .ok (some demo_actual, demo_table) ∧
      demo_row ∈ demo_table ∧ demo_row.key = "actual") ∧
    (demo_row.conf_lo = none ∧ demo_row.conf_hi = none ∧
      demo_row.model_id = "Actual" ∧
      ∃ af, some demo_actual = some af ∧
        (demo_row.date, demo_row.value) ∈ filtered_actual af "y" ∧
        Date.le demo_row.date (maxD ((filtered_actual af "y").map Prod.fst))) :=
  ⟨⟨by decide, by decide, rfl⟩,
    actual_rows_null_interval_and_origin [] (some demo_actual) none none "y" none
      (some demo_actual) demo_table demo_row (by decide) (by decide) rfl⟩

/-- C8: for every tabular-ML model and future data missing at least one
declared feature column, `_predict_future_data` raises the missing-features
`ValueError` — independently of the wrapped `predict` callable, which is a free
parameter here, so no prediction is computed — and the surrounding `forecast`
call aborts with that error, returning no table. -/
theorem ml_missing_features_error (mid mname : String) (fns : List String)
    (p : Frame → List ℚ) (fd : Frame) (ms : List Model)
    (actual_data : Option Frame) (tc : String) (hz : Option String)
    (h : ¬ ∀ nm ∈ fns, nm ∈ fd.columns) :
    predict_future_data (.ml mid mname fns p) fd = .error .missingFeatures ∧
    forecast (.ml mid mname fns p :: ms) actual_data (some fd) none tc hz =
      .error .missingFeatures := by
  have h1 : predict_future_data (.ml mid mname fns p) fd = .error .missingFeatures := by
    simp only [predict_future_data, if_neg h]
  refine ⟨h1, ?_⟩
  unfold forecast
  have hacc : accumulate (some fd) none hz (.ml mid mname fns p :: ms)
      (actual_data, []) = .error .missingFeatures := by
    unfold accumulate modelStep
    simp only [newDataPart, futurePart, h1]
  rw [hacc]

/-- C8 witnessed on feature names `["x","y"]` against future data containing
only `"x"`. -/
theorem ml_missing_features_error_witness :
    (¬ ∀ nm ∈ ["x", "y"], nm ∈ demo_f8.columns) ∧
    (predict_future_data (.ml "m1" "rf" ["x", "y"] (fun _ => [])) demo_f8 =
        .error .missingFeatures ∧
      forecast [.ml "m1" "rf" ["x", "y"] (fun _ => [])] none (some demo_f8)
          none "y" none =
        .error .missingFeatures) :=
  ⟨by decide,
    ml_missing_features_error "m1" "rf" ["x", "y"] (fun _ => []) demo_f8 []
      none "y" none (by decide)⟩

/-- C9: when the model loop contributes no rows and actual data is absent, the
final `sort_values` runs on an empty frame that lacks the `key`/`model_id`/
`date` columns and raises `KeyError`; `forecast` returns that error rather
than an empty table. -/
theorem empty_results_sort_key_error (models : List Model)
    (future_data new_data : Option Frame) (tc : String) (hz : Option String)
    (h : accumulate future_data new_data hz models (none, []) = .ok (none, [])) :
    forecast models none future_data new_data tc hz = .error .keyErrorSort := by
  unfold forecast
  rw [h]
  rfl

/-- C9 witnessed on an empty model list with all data inputs absent. -/
theorem empty_results_sort_key_error_witness :
    accumulate none none none [] ((none : Option Frame), ([] : List Row)) =
      .ok (none, []) ∧
    forecast [] none none none "y" none = .error .keyErrorSort :=
  ⟨rfl, empty_results_sort_key_error [] none none "y" none rfl⟩

/-- C10: a model of none of the four known families makes
`_predict_future_data` fall through every `isinstance` branch and return
`None`; `forecast_results.extend(None)` then raises `TypeError`, so a
`forecast` call that requests future forecasting for such a model aborts with
an error — the model is never silently skipped and contributes no rows to any
output table (no table is produced at all). -/
theorem unknown_family_future_type_error (b : Bool) (fd : Frame)
    (ms : List Model) (actual_data : Option Frame) (tc : String)
    (hz : Option String) :
    predict_future_data (.other b) fd = .ok none ∧
    forecast (.other b :: ms) actual_data (some fd) none tc hz =
      .error .typeErrorNone :=
  ⟨rfl, rfl⟩

end Pymodeltime
